import Mathlib

/-!
Shallow embedding of the welding-defect inspection app (src/app.py).

The app keeps three session counters, resolves configuration from a layered
secrets/environment source, selects one input image from two acquisition
surfaces, and on each button press runs one prediction round trip whose
failures are caught by a single handler that renders an error banner.
Confidence scores are modelled as rationals.
-/

namespace WeldApp

/-- Session counters, initialized to zero (src/app.py lines 113-118). -/
structure SessionState where
  total_inspected : Nat
  defect_count : Nat
  normal_count : Nat
  deriving Repr, DecidableEq

/-- State after the three `if "..." not in st.session_state` initializers. -/
def initState : SessionState := ⟨0, 0, 0⟩

/-- One prediction record of the endpoint response: the parallel arrays
`displayNames` and `confidences` (src/app.py lines 198-200). -/
structure Prediction where
  displayNames : List String
  confidences : List ℚ
  deriving Repr, DecidableEq

/-- Endpoint response: `response.predictions` (src/app.py line 198). -/
structure PredictResponse where
  predictions : List Prediction
  deriving Repr, DecidableEq

/-- Environment of one inspect call.  `initVertex` is the outcome of
`init_vertex_ai()` (authentication may fail); `predict n` is the outcome the
remote endpoint would give to the n-th predict attempt of this call, so that
single-attempt behaviour is expressible: the code only ever uses attempt 0. -/
structure Env where
  initVertex : Except String Unit
  predict : Nat → Except String PredictResponse

/-- Python `max` folded over the tail: keeps the running maximum. -/
def maxAcc (x : ℚ) : List ℚ → ℚ
  | [] => x
  | y :: ys => maxAcc (max x y) ys

/-- Python `max(confidences)`: raises ValueError on an empty sequence
(src/app.py line 202). -/
def pyMax : List ℚ → Except String ℚ
  | [] => .error "max() arg is an empty sequence"
  | x :: xs => .ok (maxAcc x xs)

/-- Python `confidences.index(v)`: index of the first occurrence of `v`,
ValueError when absent (src/app.py line 202). -/
def pyIndex (v : ℚ) : List ℚ → Except String Nat
  | [] => .error "is not in list"
  | x :: xs => if x = v then .ok 0 else (pyIndex v xs).map (· + 1)

/-- Python list indexing `l[i]`: IndexError when out of range. -/
def pyGetElem {α : Type} (l : List α) (i : Nat) : Except String α :=
  match l[i]? with
  | some a => .ok a
  | none => .error "list index out of range"

/-- Python `str.lower()`: lower-case each character. -/
def pyLower (s : String) : String :=
  String.mk (s.data.map Char.toLower)

/-- Defect classification: `best_label.lower() in ("defect", "bad weld")`
(src/app.py line 208). -/
def isDefectLabel (label : String) : Bool :=
  pyLower label == "defect" || pyLower label == "bad weld"

/-- Data shown in the verdict panel and used for the counter update. -/
structure Verdict where
  is_defect : Bool
  best_label : String
  best_score : ℚ
  deriving Repr, DecidableEq

/-- Body of the `try` block up to the point where the counters are updated
(src/app.py lines 191-208): obtain the endpoint handle, call predict once,
take `predictions[0]`, extract the parallel arrays, pick the first index of
the maximum confidence, and read off label and score. -/
def inspectCore (env : Env) : Except String Verdict := do
  let _ ← env.initVertex
  let response ← env.predict 0
  let predictions ← pyGetElem response.predictions 0
  let labels := predictions.displayNames
  let confidences := predictions.confidences
  let m ← pyMax confidences
  let max_idx ← pyIndex m confidences
  let best_label ← pyGetElem labels max_idx
  let c ← pyGetElem confidences max_idx
  let best_score := c * 100
  return ⟨isDefectLabel best_label, best_label, best_score⟩

/-- What one button press renders below the dashboard: a verdict panel or the
error banner of the `except` handler. -/
inductive RenderOutput where
  | verdict (v : Verdict)
  | errorBanner (msg : String)
  deriving Repr, DecidableEq

/-- Message of `st.error(f"... : \x7be\x7d")` (src/app.py line 246). -/
def errorText (e : String) : String := "예측 중 에러가 발생했습니다: " ++ e

/-- Counter update of a successful round (src/app.py lines 207-212):
`total_inspected += 1`, then exactly one of the two class counters. -/
def applyVerdict (s : SessionState) (v : Verdict) : SessionState :=
  let s1 : SessionState := { s with total_inspected := s.total_inspected + 1 }
  if v.is_defect then { s1 with defect_count := s1.defect_count + 1 }
  else { s1 with normal_count := s1.normal_count + 1 }

/-- One full press of the analyze button: the `try`/`except` at
src/app.py lines 190-246.  On success the counters are updated and the
verdict panel is rendered; any failure is caught and rendered as the error
banner, leaving the counters untouched. -/
def inspect (env : Env) (s : SessionState) : SessionState × RenderOutput :=
  match inspectCore env with
  | .ok v => (applyVerdict s v, .verdict v)
  | .error e => (s, .errorBanner (errorText e))

/-- Session state after a sequence of button presses. -/
def runInspections (envs : List Env) (s : SessionState) : SessionState :=
  envs.foldl (fun s e => (inspect e s).1) s

/-- Environment whose predict call succeeds with a single prediction record. -/
def mkOkEnv (labels : List String) (conf : List ℚ) : Env :=
  { initVertex := .ok ()
    predict := fun _ => .ok ⟨[⟨labels, conf⟩]⟩ }

/-- Python `d.get(key, dflt)` on a secrets store or `os.environ`. -/
def pyGet (m : String → Option String) (key dflt : String) : String :=
  (m key).getD dflt

/-- Configuration value `PROJECT_ID` (src/app.py line 13):
`st.secrets.get("PROJECT_ID", os.environ.get("PROJECT_ID", ""))`. -/
def PROJECT_ID (secrets envv : String → Option String) : String :=
  pyGet secrets "PROJECT_ID" (pyGet envv "PROJECT_ID" "")

/-- Configuration value `ENDPOINT_ID` (src/app.py line 14). -/
def ENDPOINT_ID (secrets envv : String → Option String) : String :=
  pyGet secrets "ENDPOINT_ID" (pyGet envv "ENDPOINT_ID" "")

/-- Configuration value `LOCATION` (src/app.py line 15), default
`"us-central1"`. -/
def LOCATION (secrets envv : String → Option String) : String :=
  pyGet secrets "LOCATION" (pyGet envv "LOCATION" "us-central1")

/-- Image selection (src/app.py lines 168-180): `img_file` starts as `None`,
is overwritten by the camera image when present, then by the uploaded image
when present. -/
def selectImage {α : Type} (img_file_cam img_file_up : Option α) : Option α :=
  let img_file : Option α := none
  let img_file := match img_file_cam with
    | some c => some c
    | none => img_file
  let img_file := match img_file_up with
    | some u => some u
    | none => img_file
  img_file

/-- Endpoint handle produced by `init_vertex_ai` (src/app.py lines 23-35). -/
structure Endpoint where
  endpoint_id : String
  used_service_account : Bool
  deriving Repr, DecidableEq

/-- Body of `init_vertex_ai` (src/app.py lines 24-35): authenticate via the
embedded service-account blob when present, otherwise via ambient local
credentials, and return the endpoint handle. -/
def initVertexBody (secrets envv : String → Option String)
    (has_gcp_service_account : Bool) : Endpoint :=
  { endpoint_id := ENDPOINT_ID secrets envv
    used_service_account := has_gcp_service_account }

/-- Modelled from the spec: the `st.cache_resource` decorator on
`init_vertex_ai` (src/app.py line 22) comes from the Streamlit library, which
is outside this repository; per the spec the result "is memoized for the
lifetime of the process — repeated calls must not re-authenticate".  Given the
current cache, a call returns the cached value when one exists; otherwise it
runs the body, caches the result and reports that the body ran (the Bool). -/
def cachedCall {α : Type} (body : Unit → α) : Option α → α × Option α × Bool
  | some v => (v, some v, false)
  | none => let v := body (); (v, some v, true)

/-- Counter invariant of the spec data model. -/
def counterInvariant (s : SessionState) : Prop :=
  s.defect_count + s.normal_count = s.total_inspected

/-- Success test on an `Except` outcome. -/
def isOk {α : Type} : Except String α → Bool
  | .ok _ => true
  | .error _ => false

/-- Round to the nearest integer with ties going to the even neighbour, the
rounding rule of Python float formatting. -/
def roundHalfEven (q : ℚ) : ℤ :=
  if q - ⌊q⌋ < 1/2 then ⌊q⌋
  else if q - ⌊q⌋ > 1/2 then ⌊q⌋ + 1
  else if 2 ∣ ⌊q⌋ then ⌊q⌋ else ⌊q⌋ + 1

/-- Python `f"{x:.1f}%"` for the nonnegative rates produced here: round the
value times ten to the nearest integer (ties to even, the float formatting
rule) and print one decimal digit. -/
def fmtPct1 (q : ℚ) : String :=
  let n := (roundHalfEven (q * 10)).toNat
  toString (n / 10) ++ "." ++ toString (n % 10) ++ "%"

/-- Defect-rate display (src/app.py line 139). -/
def defect_rate (defects total : Nat) : String :=
  if total > 0 then fmtPct1 ((defects : ℚ) / (total : ℚ) * 100) else "—"

/-! Helper lemmas. -/

theorem except_bind_ok {α β : Type} (a : α) (f : α → Except String β) :
    (Except.ok a >>= f) = f a := rfl

theorem except_bind_err {α β : Type} (e : String) (f : α → Except String β) :
    ((Except.error e : Except String α) >>= f) = .error e := rfl

theorem le_maxAcc (x : ℚ) (l : List ℚ) : x ≤ maxAcc x l := by
  induction l generalizing x with
  | nil => exact le_refl x
  | cons y ys ih => exact le_trans (le_max_left x y) (ih (max x y))

theorem mem_le_maxAcc (x : ℚ) (l : List ℚ) : ∀ y ∈ l, y ≤ maxAcc x l := by
  induction l generalizing x with
  | nil => intro y hy; simp at hy
  | cons z zs ih =>
    intro y hy
    rcases List.mem_cons.mp hy with h | h
    · subst h
      exact le_trans (le_max_right x y) (le_maxAcc (max x y) zs)
    · exact ih (max x z) y h

theorem maxAcc_eq_or_mem (x : ℚ) (l : List ℚ) : maxAcc x l = x ∨ maxAcc x l ∈ l := by
  induction l generalizing x with
  | nil => exact Or.inl rfl
  | cons y ys ih =>
    have hstep : maxAcc x (y :: ys) = maxAcc (max x y) ys := rfl
    rcases ih (max x y) with h | h
    · rcases max_choice x y with hm | hm
      · exact Or.inl (by rw [hstep, h, hm])
      · exact Or.inr (by rw [hstep, h, hm]; exact List.mem_cons_self y ys)
    · exact Or.inr (by rw [hstep]; exact List.mem_cons_of_mem y h)

theorem pyIndex_ok {v : ℚ} {l : List ℚ} {i : Nat} (h : pyIndex v l = .ok i) :
    l[i]? = some v ∧ ∀ j < i, l[j]? ≠ some v := by
  induction l generalizing i with
  | nil => simp [pyIndex] at h
  | cons x xs ih =>
    by_cases hx : x = v
    · simp only [pyIndex, if_pos hx, Except.ok.injEq] at h
      subst h
      exact ⟨by simp [hx], by intro j hj; omega⟩
    · simp only [pyIndex, if_neg hx] at h
      cases hp : pyIndex v xs with
      | error e => rw [hp] at h; simp [Except.map] at h
      | ok i0 =>
        rw [hp] at h
        simp only [Except.map, Except.ok.injEq] at h
        subst h
        obtain ⟨h1, h2⟩ := ih hp
        refine ⟨by simpa using h1, ?_⟩
        intro j hj
        cases j with
        | zero => simpa using fun hh => hx hh
        | succ j => simpa using h2 j (by omega)

theorem pyIndex_isOk {v : ℚ} {l : List ℚ} (h : v ∈ l) : ∃ i, pyIndex v l = .ok i := by
  induction l with
  | nil => simp at h
  | cons x xs ih =>
    by_cases hx : x = v
    · exact ⟨0, by simp [pyIndex, hx]⟩
    · rcases List.mem_cons.mp h with h1 | h1
      · exact absurd h1.symm hx
      · obtain ⟨i, hi⟩ := ih h1
        exact ⟨i + 1, by simp [pyIndex, hx, hi, Except.map]⟩

theorem inspectCore_ok_spec {labels : List String} {conf : List ℚ} {m : ℚ} {i : Nat}
    {lbl : String} (hm : pyMax conf = .ok m) (hi : pyIndex m conf = .ok i)
    (hl : labels[i]? = some lbl) :
    inspectCore (mkOkEnv labels conf) = .ok ⟨isDefectLabel lbl, lbl, m * 100⟩ := by
  have hc : conf[i]? = some m := (pyIndex_ok hi).1
  simp [inspectCore, mkOkEnv, pyGetElem, hm, hi, hl, hc, except_bind_ok]

theorem inspectCore_congr (env env' : Env) (h1 : env'.initVertex = env.initVertex)
    (h2 : env'.predict 0 = env.predict 0) : inspectCore env' = inspectCore env := by
  simp only [inspectCore, h1, h2]

theorem isOk_iff {α : Type} (r : Except String α) : isOk r = true ↔ ∃ v, r = .ok v := by
  cases r <;> simp [isOk]

theorem runInspections_cons (e : Env) (es : List Env) (s : SessionState) :
    runInspections (e :: es) s = runInspections es (inspect e s).1 := rfl

theorem inspect_state_of_ok {e : Env} {v : Verdict} (s : SessionState)
    (h : inspectCore e = .ok v) : (inspect e s).1 = applyVerdict s v := by
  simp [inspect, h]

theorem applyVerdict_total (s : SessionState) (v : Verdict) :
    (applyVerdict s v).total_inspected = s.total_inspected + 1 := by
  cases hv : v.is_defect <;> simp [applyVerdict, hv]

theorem run_total (envs : List Env) (s : SessionState)
    (h : ∀ e ∈ envs, isOk (inspectCore e) = true) :
    (runInspections envs s).total_inspected = s.total_inspected + envs.length := by
  induction envs generalizing s with
  | nil => simp [runInspections]
  | cons e es ih =>
    obtain ⟨v, hv⟩ := (isOk_iff _).mp (h e (List.mem_cons_self e es))
    rw [runInspections_cons, ih _ (fun e' he' => h e' (List.mem_cons_of_mem e he')),
      inspect_state_of_ok s hv, applyVerdict_total]
    simp only [List.length_cons]
    omega

theorem invariant_preserved (e : Env) (s : SessionState) (h : counterInvariant s) :
    counterInvariant (inspect e s).1 := by
  cases hc : inspectCore e with
  | error msg => simpa [inspect, hc] using h
  | ok v =>
    rw [inspect_state_of_ok s hc]
    unfold counterInvariant at *
    cases hv : v.is_defect <;> simp [applyVerdict, hv] <;> omega

theorem run_invariant (envs : List Env) (s : SessionState) (h : counterInvariant s) :
    counterInvariant (runInspections envs s) := by
  induction envs generalizing s with
  | nil => exact h
  | cons e es ih => rw [runInspections_cons]; exact ih _ (invariant_preserved e s h)

theorem mem_of_idx {α : Type} {l : List α} {i : Nat} {a : α} (h : l[i]? = some a) :
    a ∈ l := by
  have hi : i < l.length := by
    by_contra hc
    push_neg at hc
    rw [List.getElem?_eq_none hc] at h
    exact Option.noConfusion h
  rw [List.getElem?_eq_getElem hi] at h
  exact (Option.some.injEq _ _ ▸ h : l[i] = a) ▸ List.getElem_mem hi

/-! Witness data: concrete environments and configuration stores. -/

/-- Two successful rounds, one defect and one normal. -/
def wEnvs : List Env := [mkOkEnv ["Defect"] [1], mkOkEnv ["Normal"] [1]]

/-- Transport failure on the predict call. -/
def wFailEnv : Env := ⟨.ok (), fun _ => .error "connection reset"⟩

/-- Same first attempt as `wFailEnv` but different on later attempts. -/
def wFailEnv2 : Env :=
  ⟨.ok (), fun n => if n = 0 then .error "connection reset" else .ok ⟨[]⟩⟩

/-- Successful predict call whose first prediction has no confidences. -/
def wEmptyEnv : Env := ⟨.ok (), fun _ => .ok ⟨[⟨["Normal"], []⟩]⟩⟩

/-- Secrets store providing all three configuration keys. -/
def wSecretsA : String → Option String := fun k =>
  if k = "PROJECT_ID" then some "proj-a" else
  if k = "ENDPOINT_ID" then some "ep-a" else
  if k = "LOCATION" then some "loc-a" else none

/-- Environment providing all three configuration keys. -/
def wEnvB : String → Option String := fun k =>
  if k = "PROJECT_ID" then some "proj-b" else
  if k = "ENDPOINT_ID" then some "ep-b" else
  if k = "LOCATION" then some "loc-b" else none

/-- Store providing nothing. -/
def wNone : String → Option String := fun _ => none

/-! Claims. -/

/-- C1: from the initialized zero state, a sequence of N successful prediction
rounds gives total_inspected = N; `defect_count + normal_count =
total_inspected` holds after every prefix of the sequence; and each successful
round increments total_inspected by exactly 1 and exactly one of defect_count
or normal_count by exactly 1. -/
theorem claim_C1 (envs : List Env) (e : Env) (s : SessionState) (k : Nat)
    (h : ∀ x ∈ envs, isOk (inspectCore x) = true)
    (he : isOk (inspectCore e) = true) :
    (runInspections envs initState).total_inspected = envs.length ∧
    (runInspections (envs.take k) initState).defect_count +
      (runInspections (envs.take k) initState).normal_count =
      (runInspections (envs.take k) initState).total_inspected ∧
    (inspect e s).1.total_inspected = s.total_inspected + 1 ∧
    (((inspect e s).1.defect_count = s.defect_count + 1 ∧
      (inspect e s).1.normal_count = s.normal_count) ∨
     ((inspect e s).1.defect_count = s.defect_count ∧
      (inspect e s).1.normal_count = s.normal_count + 1)) := by
  obtain ⟨v, hv⟩ := (isOk_iff _).mp he
  refine ⟨?_, run_invariant (envs.take k) initState rfl, ?_, ?_⟩
  · simpa [initState] using run_total envs initState h
  · rw [inspect_state_of_ok s hv, applyVerdict_total]
  · rw [inspect_state_of_ok s hv]
    cases hd : v.is_defect
    · exact Or.inr (by simp [applyVerdict, hd])
    · exact Or.inl (by simp [applyVerdict, hd])

/-- Closed instance of C1 at two concrete successful rounds and one concrete
successful round applied to the state (3, 1, 2). -/
theorem claim_C1_wit :
    (runInspections wEnvs initState).total_inspected = wEnvs.length ∧
    (runInspections (wEnvs.take 1) initState).defect_count +
      (runInspections (wEnvs.take 1) initState).normal_count =
      (runInspections (wEnvs.take 1) initState).total_inspected ∧
    (inspect (mkOkEnv ["Bad Weld"] [1]) ⟨3, 1, 2⟩).1.total_inspected = 3 + 1 ∧
    (((inspect (mkOkEnv ["Bad Weld"] [1]) ⟨3, 1, 2⟩).1.defect_count = 1 + 1 ∧
      (inspect (mkOkEnv ["Bad Weld"] [1]) ⟨3, 1, 2⟩).1.normal_count = 2) ∨
     ((inspect (mkOkEnv ["Bad Weld"] [1]) ⟨3, 1, 2⟩).1.defect_count = 1 ∧
      (inspect (mkOkEnv ["Bad Weld"] [1]) ⟨3, 1, 2⟩).1.normal_count = 2 + 1)) :=
  claim_C1 wEnvs (mkOkEnv ["Bad Weld"] [1]) ⟨3, 1, 2⟩ 1
    (by
      intro x hx
      rcases List.mem_cons.mp hx with h | h
      · subst h; rfl
      · rcases List.mem_cons.mp h with h | h
        · subst h; rfl
        · simp at h)
    (by rfl)

/-- C2: whenever any step before the counter update fails, the failure is
caught, the render output is the error banner carrying the failure's
description, the counters are unchanged, and the outcome depends only on
attempt 0 of the predict call (no retry). -/
theorem claim_C2 (env env' : Env) (s : SessionState) (msg : String)
    (h : inspectCore env = .error msg)
    (h1 : env'.initVertex = env.initVertex)
    (h2 : env'.predict 0 = env.predict 0) :
    (inspect env s).1 = s ∧
    (inspect env s).2 = .errorBanner (errorText msg) ∧
    (∃ t, errorText msg = t ++ msg) ∧
    inspect env' s = inspect env s := by
  refine ⟨by simp [inspect, h], by simp [inspect, h],
    ⟨"예측 중 에러가 발생했습니다: ", rfl⟩, ?_⟩
  rw [inspect, inspect, inspectCore_congr env env' h1 h2]

/-- Closed instance of C2 at a concrete transport failure and the state
(7, 2, 5); the comparison environment differs from it on every attempt
after the first. -/
theorem claim_C2_wit :
    (inspect wFailEnv ⟨7, 2, 5⟩).1 = ⟨7, 2, 5⟩ ∧
    (inspect wFailEnv ⟨7, 2, 5⟩).2 = .errorBanner (errorText "connection reset") ∧
    (∃ t, errorText "connection reset" = t ++ "connection reset") ∧
    inspect wFailEnv2 ⟨7, 2, 5⟩ = inspect wFailEnv ⟨7, 2, 5⟩ :=
  claim_C2 wFailEnv wFailEnv2 ⟨7, 2, 5⟩ "connection reset" rfl rfl rfl

/-- C4: a result classifies as defect exactly when the lowercased label equals
"defect" or "bad weld"; "DEFECT", "defect" and "Bad Weld" classify as defect,
"Unknown" does not, and a successful round on an unrecognized label increments
normal_count, not defect_count. -/
theorem claim_C4 (label : String) (s : SessionState) :
    (isDefectLabel label = true ↔
      pyLower label = "defect" ∨ pyLower label = "bad weld") ∧
    isDefectLabel "DEFECT" = true ∧
    isDefectLabel "defect" = true ∧
    isDefectLabel "Bad Weld" = true ∧
    isDefectLabel "Unknown" = false ∧
    (inspect (mkOkEnv [label] [1]) s).1.total_inspected = s.total_inspected + 1 ∧
    (inspect (mkOkEnv [label] [1]) s).1.defect_count =
      (if isDefectLabel label then s.defect_count + 1 else s.defect_count) ∧
    (inspect (mkOkEnv [label] [1]) s).1.normal_count =
      (if isDefectLabel label then s.normal_count else s.normal_count + 1) ∧
    (inspect (mkOkEnv ["Unknown"] [1]) s).1.normal_count = s.normal_count + 1 ∧
    (inspect (mkOkEnv ["Unknown"] [1]) s).1.defect_count = s.defect_count := by
  have hcore : ∀ lbl : String,
      inspectCore (mkOkEnv [lbl] [1]) = .ok ⟨isDefectLabel lbl, lbl, 1 * 100⟩ := by
    intro lbl
    have hi : pyIndex (1 : ℚ) [1] = .ok 0 := by simp [pyIndex]
    exact inspectCore_ok_spec rfl hi rfl
  have hunk : isDefectLabel "Unknown" = false := by decide
  refine ⟨by simp [isDefectLabel], by decide, by decide, by decide, hunk,
    ?_, ?_, ?_, ?_, ?_⟩
  · rw [inspect_state_of_ok s (hcore label), applyVerdict_total]
  · rw [inspect_state_of_ok s (hcore label)]
    cases hd : isDefectLabel label <;> simp [applyVerdict, hd]
  · rw [inspect_state_of_ok s (hcore label)]
    cases hd : isDefectLabel label <;> simp [applyVerdict, hd]
  · rw [inspect_state_of_ok s (hcore "Unknown")]
    simp [applyVerdict, hunk]
  · rw [inspect_state_of_ok s (hcore "Unknown")]
    simp [applyVerdict, hunk]

/-- C6: the selector tracks at most one image (an Option); when both surfaces
produced an image in the same render cycle the uploaded one wins, and in
general the selected image is one of the two surfaces' outputs. -/
theorem claim_C6 {α : Type} (c u : α) (cam up : Option α) :
    selectImage (some c) (some u) = some u ∧
    selectImage (some c) (none : Option α) = some c ∧
    selectImage (none : Option α) (some u) = some u ∧
    selectImage (none : Option α) (none : Option α) = none ∧
    (selectImage cam up = cam ∨ selectImage cam up = up) := by
  refine ⟨rfl, rfl, rfl, rfl, ?_⟩
  cases cam <;> cases up <;> simp [selectImage]

/-- C7: each configuration value resolves first-match-wins: the embedded
secret value when present, else the environment variable, else the default,
which is "" for PROJECT_ID and ENDPOINT_ID and "us-central1" for LOCATION. -/
theorem claim_C7
    (sA eA sB eB sC eC : String → Option String)
    (pv dv lv pw dw lw : String)
    (hA1 : sA "PROJECT_ID" = some pv) (hA2 : sA "ENDPOINT_ID" = some dv)
    (hA3 : sA "LOCATION" = some lv)
    (hB1 : sB "PROJECT_ID" = none) (hB2 : eB "PROJECT_ID" = some pw)
    (hB3 : sB "ENDPOINT_ID" = none) (hB4 : eB "ENDPOINT_ID" = some dw)
    (hB5 : sB "LOCATION" = none) (hB6 : eB "LOCATION" = some lw)
    (hC1 : ∀ k, sC k = none) (hC2 : ∀ k, eC k = none) :
    PROJECT_ID sA eA = pv ∧ ENDPOINT_ID sA eA = dv ∧ LOCATION sA eA = lv ∧
    PROJECT_ID sB eB = pw ∧ ENDPOINT_ID sB eB = dw ∧ LOCATION sB eB = lw ∧
    PROJECT_ID sC eC = "" ∧ ENDPOINT_ID sC eC = "" ∧
    LOCATION sC eC = "us-central1" := by
  simp [PROJECT_ID, ENDPOINT_ID, LOCATION, pyGet,
    hA1, hA2, hA3, hB1, hB2, hB3, hB4, hB5, hB6, hC1, hC2]

/-- Closed instance of C7 at concrete stores: a full secrets store, an
environment-only store, and empty stores. -/
theorem claim_C7_wit :
    PROJECT_ID wSecretsA wNone = "proj-a" ∧
    ENDPOINT_ID wSecretsA wNone = "ep-a" ∧
    LOCATION wSecretsA wNone = "loc-a" ∧
    PROJECT_ID wNone wEnvB = "proj-b" ∧
    ENDPOINT_ID wNone wEnvB = "ep-b" ∧
    LOCATION wNone wEnvB = "loc-b" ∧
    PROJECT_ID wNone wNone = "" ∧
    ENDPOINT_ID wNone wNone = "" ∧
    LOCATION wNone wNone = "us-central1" :=
  claim_C7 wSecretsA wNone wNone wEnvB wNone wNone
    "proj-a" "ep-a" "loc-a" "proj-b" "ep-b" "loc-b"
    rfl rfl rfl rfl rfl rfl rfl rfl rfl (fun _ => rfl) (fun _ => rfl)

/-- C8: the first call of the memoized initializer runs the body (constructs
and authenticates the handle); a repeated call returns the cached handle
without running the body, so calling twice is observationally equal to
calling once. -/
theorem claim_C8 (body : Unit → Endpoint) (cached : Endpoint)
    (secrets envv : String → Option String) (hasSA : Bool) :
    (cachedCall body none).1 = body () ∧
    (cachedCall body none).2.2 = true ∧
    cachedCall body (some cached) = (cached, some cached, false) ∧
    cachedCall body (cachedCall body none).2.1 =
      ((cachedCall body none).1, (cachedCall body none).2.1, false) ∧
    (cachedCall (fun _ => initVertexBody secrets envv hasSA) none).1 =
      initVertexBody secrets envv hasSA :=
  ⟨rfl, rfl, rfl, rfl, rfl⟩

/-- C9: a successful response whose first prediction has an empty confidences
array makes the max computation fail; the failure is caught, the error banner
is rendered, and the counters keep their pre-call values. -/
theorem claim_C9 (env : Env) (s : SessionState) (labels : List String)
    (rest : List Prediction)
    (h1 : env.initVertex = .ok ())
    (h2 : env.predict 0 = .ok ⟨⟨labels, []⟩ :: rest⟩) :
    inspectCore env = .error "max() arg is an empty sequence" ∧
    inspect env s = (s, .errorBanner (errorText "max() arg is an empty sequence")) := by
  have hcore : inspectCore env = .error "max() arg is an empty sequence" := by
    simp [inspectCore, h1, h2, pyGetElem, pyMax, except_bind_ok, except_bind_err]
  exact ⟨hcore, by simp [inspect, hcore]⟩

/-- Closed instance of C9 at a concrete empty-confidences response and the
state (4, 1, 3). -/
theorem claim_C9_wit :
    inspectCore wEmptyEnv = .error "max() arg is an empty sequence" ∧
    inspect wEmptyEnv ⟨4, 1, 3⟩ =
      (⟨4, 1, 3⟩, .errorBanner (errorText "max() arg is an empty sequence")) :=
  claim_C9 wEmptyEnv ⟨4, 1, 3⟩ ["Normal"] [] rfl rfl

/-- C10: when neither source provides PROJECT_ID or ENDPOINT_ID, configuration
loading still yields the empty string without raising; the misconfiguration
only surfaces when a prediction attempt fails, where it is caught and shown as
the error banner. -/
theorem claim_C10 (secrets envm : String → Option String) (env : Env)
    (s : SessionState) (msg : String)
    (h1 : secrets "PROJECT_ID" = none) (h2 : envm "PROJECT_ID" = none)
    (h3 : secrets "ENDPOINT_ID" = none) (h4 : envm "ENDPOINT_ID" = none)
    (h5 : env.initVertex = .ok ()) (h6 : env.predict 0 = .error msg) :
    PROJECT_ID secrets envm = "" ∧ ENDPOINT_ID secrets envm = "" ∧
    inspect env s = (s, .errorBanner (errorText msg)) := by
  have hcore : inspectCore env = .error msg := by
    simp [inspectCore, h5, h6, except_bind_ok, except_bind_err]
  exact ⟨by simp [PROJECT_ID, pyGet, h1, h2], by simp [ENDPOINT_ID, pyGet, h3, h4],
    by simp [inspect, hcore]⟩

/-- Closed instance of C10 at empty stores and a concrete failing predict
attempt from the zero state. -/
theorem claim_C10_wit :
    PROJECT_ID wNone wNone = "" ∧ ENDPOINT_ID wNone wNone = "" ∧
    inspect wFailEnv ⟨0, 0, 0⟩ =
      (⟨0, 0, 0⟩, .errorBanner (errorText "connection reset")) :=
  claim_C10 wNone wNone wFailEnv ⟨0, 0, 0⟩ "connection reset"
    rfl rfl rfl rfl rfl rfl

/-- C3: for a non-empty confidences list the operation picks the index of the
maximum confidence, ties broken by first occurrence, and reports that index's
label and its confidence times 100; on confidences [0.2, 0.9, 0.1] with labels
["Normal", "Defect", "Bad Weld"] it reports "Defect" with score 90. -/
theorem claim_C3 (labels : List String) (conf : List ℚ)
    (hne : conf ≠ []) (hlen : conf.length ≤ labels.length) :
    (∃ m i lbl, pyMax conf = .ok m ∧ pyIndex m conf = .ok i ∧
      conf[i]? = some m ∧ labels[i]? = some lbl ∧
      (∀ c ∈ conf, c ≤ m) ∧
      (∀ j c, j < i → conf[j]? = some c → c < m) ∧
      inspectCore (mkOkEnv labels conf) = .ok ⟨isDefectLabel lbl, lbl, m * 100⟩) ∧
    inspectCore (mkOkEnv ["Normal", "Defect", "Bad Weld"] [2/10, 9/10, 1/10]) =
      .ok ⟨true, "Defect", 90⟩ := by
  constructor
  · obtain ⟨x, xs, rfl⟩ : ∃ x xs, conf = x :: xs := by
      cases conf with
      | nil => exact absurd rfl hne
      | cons x xs => exact ⟨x, xs, rfl⟩
    have hmem : maxAcc x xs ∈ x :: xs := by
      rcases maxAcc_eq_or_mem x xs with h | h
      · rw [h]; exact List.mem_cons_self x xs
      · exact List.mem_cons_of_mem x h
    obtain ⟨i, hi⟩ := pyIndex_isOk hmem
    obtain ⟨hgi, hbefore⟩ := pyIndex_ok hi
    have hilt : i < (x :: xs).length := by
      by_contra hc
      push_neg at hc
      rw [List.getElem?_eq_none hc] at hgi
      exact Option.noConfusion hgi
    have hlbl : labels[i]? = some labels[i] :=
      List.getElem?_eq_getElem (lt_of_lt_of_le hilt hlen)
    refine ⟨maxAcc x xs, i, labels[i], rfl, hi, hgi, hlbl, ?_, ?_,
      inspectCore_ok_spec rfl hi hlbl⟩
    · intro c hc
      rcases List.mem_cons.mp hc with h | h
      · exact h ▸ le_maxAcc x xs
      · exact mem_le_maxAcc x xs c h
    · intro j c hj hcj
      have hle : c ≤ maxAcc x xs := by
        rcases List.mem_cons.mp (mem_of_idx hcj) with h | h
        · exact h ▸ le_maxAcc x xs
        · exact mem_le_maxAcc x xs c h
      exact lt_of_le_of_ne hle (fun he => hbefore j hj (by rw [hcj, he]))
  · have hmax : pyMax [2/10, 9/10, 1/10] = .ok (9/10 : ℚ) := by
      have e1 : max (2/10 : ℚ) (9/10) = 9/10 := max_eq_right (by norm_num)
      have e2 : max (9/10 : ℚ) (1/10) = 9/10 := max_eq_left (by norm_num)
      have hacc : maxAcc (2/10 : ℚ) [9/10, 1/10] = 9/10 := by
        simp only [maxAcc]
        rw [e1, e2]
      simp only [pyMax, hacc]
    have hidx : pyIndex (9/10 : ℚ) [2/10, 9/10, 1/10] = .ok 1 := by
      have ne1 : ¬((2/10 : ℚ) = 9/10) := by norm_num
      simp [pyIndex, ne1, Except.map]
    have hlbl : (["Normal", "Defect", "Bad Weld"] : List String)[1]? = some "Defect" :=
      rfl
    rw [inspectCore_ok_spec hmax hidx hlbl]
    have hd : isDefectLabel "Defect" = true := by decide
    have hs : (9/10 : ℚ) * 100 = 90 := by norm_num
    rw [hd, hs]

/-- Closed instance of C3 at the example response of the spec. -/
theorem claim_C3_wit :
    (∃ m i lbl, pyMax [2/10, 9/10, 1/10] = .ok m ∧
      pyIndex m [2/10, 9/10, 1/10] = .ok i ∧
      ([2/10, 9/10, 1/10] : List ℚ)[i]? = some m ∧
      (["Normal", "Defect", "Bad Weld"] : List String)[i]? = some lbl ∧
      (∀ c ∈ ([2/10, 9/10, 1/10] : List ℚ), c ≤ m) ∧
      (∀ j c, j < i → ([2/10, 9/10, 1/10] : List ℚ)[j]? = some c → c < m) ∧
      inspectCore (mkOkEnv ["Normal", "Defect", "Bad Weld"] [2/10, 9/10, 1/10]) =
        .ok ⟨isDefectLabel lbl, lbl, m * 100⟩) ∧
    inspectCore (mkOkEnv ["Normal", "Defect", "Bad Weld"] [2/10, 9/10, 1/10]) =
      .ok ⟨true, "Defect", 90⟩ :=
  claim_C3 ["Normal", "Defect", "Bad Weld"] [2/10, 9/10, 1/10]
    (by simp) (by simp)

/-- Rounding to the nearest integer with ties to even differs from the exact
value by at most one half. -/
theorem roundHalfEven_close (q : ℚ) : |(roundHalfEven q : ℚ) - q| ≤ 1/2 := by
  have h1 : (⌊q⌋ : ℚ) ≤ q := Int.floor_le q
  have h2 : q < ⌊q⌋ + 1 := Int.lt_floor_add_one q
  unfold roundHalfEven
  split_ifs with ha hb hc <;> (rw [abs_le]; push_cast; constructor <;> linarith)

/-- C5: the defect-rate card shows the em dash when total_inspected is 0 and
otherwise defect_count / total_inspected as a percentage to one decimal place
(rounded to the nearest tenth); at 1 defect of 3 it shows "33.3%". -/
theorem claim_C5 (d t k : Nat) (q : ℚ) (ht : 0 < t) :
    defect_rate k 0 = "—" ∧
    defect_rate 1 3 = "33.3%" ∧
    |(roundHalfEven q : ℚ) - q| ≤ 1/2 ∧
    defect_rate d t = fmtPct1 ((d : ℚ) / (t : ℚ) * 100) := by
  refine ⟨rfl, ?_, roundHalfEven_close q, by simp [defect_rate, ht]⟩
  have harg : ((1 : Nat) : ℚ) / ((3 : Nat) : ℚ) * 100 * 10 = 1000/3 := by
    push_cast
    norm_num
  have hfl : ⌊(1000/3 : ℚ)⌋ = 333 := by
    rw [Int.floor_eq_iff]
    constructor <;> norm_num
  have hr : roundHalfEven (((1 : Nat) : ℚ) / ((3 : Nat) : ℚ) * 100 * 10) = 333 := by
    unfold roundHalfEven
    rw [harg, hfl]
    rw [if_pos (by push_cast; norm_num : (1000/3 : ℚ) - ((333 : ℤ) : ℚ) < 1/2)]
  have hshape : defect_rate 1 3 = fmtPct1 (((1 : Nat) : ℚ) / ((3 : Nat) : ℚ) * 100) := by
    simp [defect_rate]
  rw [hshape]
  unfold fmtPct1
  rw [hr]
  decide

/-- Closed instance of C5 at zero total, at one defect of three, and at the
rounding of 3.7. -/
theorem claim_C5_wit :
    defect_rate 0 0 = "—" ∧
    defect_rate 1 3 = "33.3%" ∧
    |(roundHalfEven (37/10) : ℚ) - 37/10| ≤ 1/2 ∧
    defect_rate 1 3 = fmtPct1 (((1 : Nat) : ℚ) / ((3 : Nat) : ℚ) * 100) :=
  claim_C5 1 3 0 (37/10) (by decide)

end WeldApp
